import Mathlib

/-!
Verification development for the NPRI scraping repository.

The Python sources are shallowly embedded: page sources are strings
(lists of characters), regex searches over them are modelled as explicit
scanning functions reproducing the leftmost-match and backtracking
behaviour of the concrete patterns used by the code, and the per-field
dictionaries are association lists with Python dict insert/update
semantics.  DOM queries of the form find_elements(contains(text(), s))
are modelled by substring presence of s in the page source; the two
DOM-value reads of scrape_contact_info_selenium (the business-number
element text and the employee value cell) are passed in as explicit
optional inputs, none meaning the query found no element.
-/

namespace Npri

/-- Python regex \s character class (ASCII whitespace). -/
def isWs (c : Char) : Bool :=
  c == ' ' || c == '\t' || c == '\n' || c == '\r' || c == '\x0b' || c == '\x0c'

/-- Case-insensitive prefix test on character lists (re.IGNORECASE literal match). -/
def startsWithCI : List Char → List Char → Bool
  | [], _ => true
  | _ :: _, [] => false
  | a :: as, b :: bs => (a.toLower == b.toLower) && startsWithCI as bs

/-- Case-sensitive prefix test on character lists. -/
def startsWithCS : List Char → List Char → Bool
  | [], _ => true
  | _ :: _, [] => false
  | a :: as, b :: bs => (a == b) && startsWithCS as bs

/-- Substring presence (Python `needle in hay`). -/
def hasSubList (needle : List Char) : List Char → Bool
  | [] => startsWithCS needle []
  | c :: t => startsWithCS needle (c :: t) || hasSubList needle t

/-- `needle in hay` on strings, case-sensitive. -/
def containsStr (hay needle : String) : Bool := hasSubList needle.data hay.data

/-- Case-insensitive substring presence (re.search of a literal with IGNORECASE). -/
def containsCI (hay needle : String) : Bool :=
  hasSubList (needle.data.map Char.toLower) (hay.data.map Char.toLower)

/-- Python str.strip(): drop leading and trailing whitespace. -/
def pyStrip (cs : List Char) : List Char :=
  (((cs.dropWhile isWs).reverse.dropWhile isWs)).reverse

/-- Leftmost regex search for a pattern of the form `LABEL<body>`: scan for a
case-insensitive occurrence of the label after which `body` matches; on a body
failure the scan resumes one character further (re.search semantics). -/
def captureAfterLabel (label : List Char) (body : List Char → Option (List Char)) :
    List Char → Option (List Char)
  | [] => none
  | c :: t =>
    if startsWithCI label (c :: t) then
      match body ((c :: t).drop label.length) with
      | some v => some v
      | none => captureAfterLabel label body t
    else captureAfterLabel label body t

/-! ## Field maps (Python dicts keyed by field name) -/

/-- A contact-field dictionary: insertion-ordered association list, keys unique. -/
def FieldMap := List (String × String)

instance : DecidableEq FieldMap := by
  unfold FieldMap
  infer_instance

def fmLookup : FieldMap → String → Option String
  | [], _ => none
  | (k', v) :: t, k => if k' == k then some v else fmLookup t k

def fmHas : FieldMap → String → Bool
  | [], _ => false
  | (k', _) :: t, k => k' == k || fmHas t k

/-- Python dict assignment: update in place if present, else append. -/
def fmSet : FieldMap → String → String → FieldMap
  | [], k, v => [(k, v)]
  | (k', v') :: t, k, v => if k' == k then (k', v) :: t else (k', v') :: fmSet t k v

/-- Guarded assignment `if key not in d: d[key] = v` (with an optional matched value). -/
def applyGeneric (m : FieldMap) (k : String) (r : Option String) : FieldMap :=
  if fmHas m k then m
  else
    match r with
    | some v => fmSet m k v
    | none => m

/-- Unconditional assignment guarded by a boolean condition
(`if re.search(literal, page): d[key] = value`). -/
def hardSet (m : FieldMap) (k v : String) (cond : Bool) : FieldMap :=
  if cond then fmSet m k v else m

def fmIsEmpty (m : FieldMap) : Bool :=
  match m with
  | [] => true
  | _ :: _ => false

/-! ## Regex models for the labeled-field patterns

Each Python pattern `re.search(LABEL + tail, page, re.IGNORECASE)` used by the
extractors is modelled by a dedicated body function on the text following the
label, combined with `captureAfterLabel` for the leftmost-occurrence scan. -/

/-- Character class of r"[0-9\-\(\)\s]" (the phone value class). -/
def phoneClass (c : Char) : Bool :=
  c.isDigit || c == '-' || c == '(' || c == ')' || isWs c

/-- Body of r"Phone:\s*([0-9\-\(\)\s]+)": since the class contains whitespace,
the greedy interplay of \s* and the group makes the stripped captured value
equal to the stripped maximal class run after the label (empty run: no match,
the scan continues). -/
def phoneBody (rest : List Char) : Option (List Char) :=
  let run := rest.takeWhile phoneClass
  if run.isEmpty then none else some run

def phoneSearchL (cs : List Char) : Option (List Char) :=
  (captureAfterLabel "Phone:".data phoneBody cs).map pyStrip

/-- Model of `re.search(r"Phone:\s*([0-9\-\(\)\s]+)", page, re.IGNORECASE)`
followed by `.group(1).strip()`. -/
def phoneSearch (s : String) : Option String := (phoneSearchL s.data).map String.mk

/-- Character class of the email local part r"[a-zA-Z0-9._%+-]". -/
def localClass (c : Char) : Bool :=
  c.isAlphanum || c == '.' || c == '_' || c == '%' || c == '+' || c == '-'

/-- Character class of the email domain part r"[a-zA-Z0-9.-]". -/
def domainClass (c : Char) : Bool := c.isAlphanum || c == '.' || c == '-'

/-- One backtracking attempt of r"[a-zA-Z0-9.-]+\.[a-zA-Z]{2,}" on the maximal
domain-class run D, with the first + taking k characters: requires k ≥ 1, a
literal dot at index k and at least two letters after it (taken greedily). -/
def tryDomainAt (D : List Char) (k : Nat) : Option (List Char) :=
  if k == 0 then none
  else
    match D.drop k with
    | b :: rest =>
      if b = '.' then
        if 2 ≤ (rest.takeWhile Char.isAlpha).length then
          some (D.take k ++ '.' :: rest.takeWhile Char.isAlpha)
        else none
      else none
    | [] => none

/-- Greedy-with-backtracking match of the email domain: the longest viable
first part wins. -/
def domainMatch (D : List Char) : Option (List Char) :=
  ((List.range D.length).reverse).findSome? (tryDomainAt D)

/-- Body of r"Email:\s*([a-zA-Z0-9._%+-]+@[a-zA-Z0-9.-]+\.[a-zA-Z]{2,})". -/
def emailBody (rest0 : List Char) : Option (List Char) :=
  let rest := rest0.dropWhile isWs
  let l := rest.takeWhile localClass
  if l.isEmpty then none
  else
    match rest.drop l.length with
    | a :: d =>
      if a = '@' then
        (domainMatch (d.takeWhile domainClass)).map (fun dm => l ++ '@' :: dm)
      else none
    | [] => none

def emailSearchL (cs : List Char) : Option (List Char) :=
  (captureAfterLabel "Email:".data emailBody cs).map pyStrip

/-- Model of the Email labeled pattern followed by `.group(1).strip()`. -/
def emailSearch (s : String) : Option String := (emailSearchL s.data).map String.mk

/-- Body of r"Business number[^0-9]*([0-9]{9})": skip non-digits greedily, then
require nine consecutive digits (a shorter digit run cannot be rescued by
backtracking because [^0-9]* cannot cross digits). -/
def bnBody (rest : List Char) : Option (List Char) :=
  let r := rest.dropWhile (fun c => !c.isDigit)
  let nine := r.take 9
  if nine.length == 9 && nine.all Char.isDigit then some nine else none

def bnSearchL (cs : List Char) : Option (List Char) :=
  (captureAfterLabel "Business number".data bnBody cs).map pyStrip

/-- Model of the generic business-number pattern of
improved_contact_extractor followed by `.group(1).strip()`. -/
def bnSearch (s : String) : Option String := (bnSearchL s.data).map String.mk

/-- Body of r"...[^0-9]*([0-9]+)": skip non-digits, take the digit run. -/
def digitsAfterSkip (rest : List Char) : Option (List Char) :=
  let r := rest.dropWhile (fun c => !c.isDigit)
  let run := r.takeWhile Char.isDigit
  if run.isEmpty then none else some run

/-- Model of r"Number of full-time employee equivalents[^0-9]*([0-9]+)". -/
def employeesSearch (s : String) : Option String :=
  ((captureAfterLabel "Number of full-time employee equivalents".data
      digitsAfterSkip s.data).map pyStrip).map String.mk

/-- Body of r"Contact Language:\s*([A-Za-z]+)". -/
def languageBody (rest : List Char) : Option (List Char) :=
  let r := rest.dropWhile isWs
  let run := r.takeWhile Char.isAlpha
  if run.isEmpty then none else some run

/-- Model of the Contact Language labeled pattern. -/
def languageSearch (s : String) : Option String :=
  ((captureAfterLabel "Contact Language:".data languageBody s.data).map pyStrip).map String.mk

/-- Body of the first contact-name pattern of improved_contact_extractor,
r"Contact information[^a-zA-Z]*([A-Z][a-z]+ [A-Z][a-z]+)" with IGNORECASE
(the classes become case-blind): skip non-letters, then require a run of at
least two letters, one space, and another run of at least two letters. -/
def twoWordsAfterSkip (rest : List Char) : Option (List Char) :=
  let r := rest.dropWhile (fun c => !c.isAlpha)
  let w1 := r.takeWhile Char.isAlpha
  if w1.length < 2 then none
  else
    match r.drop w1.length with
    | ' ' :: r2 =>
      let w2 := r2.takeWhile Char.isAlpha
      if w2.length < 2 then none else some (w1 ++ ' ' :: w2)
    | _ => none

/-- One anchored attempt of the second contact-name pattern
r"([A-Z][a-z]+ [A-Z][a-z]+)[\s\n]*Position:" (IGNORECASE) at the head of cs:
the second word backtracks from the full letter run down to two letters so
that the ws-run and the Position: label can follow. -/
def nameBeforePositionAt (cs : List Char) : Option (List Char) :=
  let w1 := cs.takeWhile Char.isAlpha
  if w1.length < 2 then none
  else
    match cs.drop w1.length with
    | ' ' :: r2 =>
      let R := r2.takeWhile Char.isAlpha
      ((List.range (R.length + 1)).reverse).findSome? (fun k =>
        if k < 2 then none
        else
          let after := (r2.drop k).dropWhile isWs
          if startsWithCI "Position:".data after then some (w1 ++ ' ' :: R.take k)
          else none)
    | _ => none

/-- Leftmost scan of an unanchored pattern attempt over every suffix. -/
def scanFor (f : List Char → Option (List Char)) : List Char → Option (List Char)
  | [] => f []
  | c :: t =>
    match f (c :: t) with
    | some v => some v
    | none => scanFor f t

/-- The contact-name pattern cascade of improved_contact_extractor
(first matching pattern wins), each value `.strip()`ped. -/
def nameCascade (s : String) : Option String :=
  (((captureAfterLabel "Contact information".data twoWordsAfterSkip s.data).orElse
      (fun _ => scanFor nameBeforePositionAt s.data)).map pyStrip).map String.mk

/-! ## Position patterns and the value cleaners -/

def lbrace : Char := '\x7b'

def rbrace : Char := '\x7d'

/-- The class of the raw pattern r"[^\\n\\r\\}]": everything except a
backslash, the letters n and r, and a closing brace (the escapes in the raw
string denote those literal characters, not newlines). -/
def posClassA (c : Char) : Bool := !(c == '\\' || c == 'n' || c == 'r' || c == rbrace)

/-- The class of r"[^\n\r}]": everything except newline, carriage return and
a closing brace. -/
def posClassB (c : Char) : Bool := !(c == '\n' || c == '\r' || c == rbrace)

/-- Terminator (?:\s+Phone:|Email:|$): a non-empty whitespace run followed by
the Phone: label, or the Email: label, or the end of the text ($ also matches
just before one trailing newline). -/
def termA (cs : List Char) : Bool :=
  (!(cs.takeWhile isWs).isEmpty &&
      startsWithCI "Phone:".data (cs.drop (cs.takeWhile isWs).length)) ||
  startsWithCI "Email:".data cs || cs.isEmpty || cs == ['\n']

/-- Terminator (?:\s+Phone:|Email:|Contact Language:). -/
def termB (cs : List Char) : Bool :=
  (!(cs.takeWhile isWs).isEmpty &&
      startsWithCI "Phone:".data (cs.drop (cs.takeWhile isWs).length)) ||
  startsWithCI "Email:".data cs || startsWithCI "Contact Language:".data cs

/-- Body of `\s*(CLASS+?)TERM`: the greedy \s* backtracks from the maximal
whitespace run downwards, the lazy group grows from one character upwards
until the terminator matches. -/
def lazyBody (cls : Char → Bool) (term : List Char → Bool) (rest : List Char) :
    Option (List Char) :=
  ((List.range ((rest.takeWhile isWs).length + 1)).reverse).findSome? (fun w =>
    let r := rest.drop w
    (List.range (r.takeWhile cls).length).findSome? (fun i =>
      if term (r.drop (i + 1)) then some (r.take (i + 1)) else none))

/-- One re.sub pass of r"\{\{[^}]*\}\}" → "": drop double-brace template
placeholders; an unclosed opening pair is kept verbatim. -/
def removeDoubleBracesFuel : Nat → List Char → List Char
  | 0, cs => cs
  | _ + 1, [] => []
  | f + 1, c :: t =>
    if c == lbrace then
      match t with
      | c2 :: t2 =>
        if c2 == lbrace then
          match t2.drop (t2.takeWhile (fun x => !(x == rbrace))).length with
          | x :: y :: rest =>
            if x == rbrace && y == rbrace then removeDoubleBracesFuel f rest
            else c :: removeDoubleBracesFuel f t
          | _ => c :: removeDoubleBracesFuel f t
        else c :: removeDoubleBracesFuel f t
      | [] => [c]
    else c :: removeDoubleBracesFuel f t

def removeDoubleBraces (cs : List Char) : List Char :=
  removeDoubleBracesFuel cs.length cs

/-- Post-processing of a matched position value in
improved_contact_extractor: strip, remove placeholder syntax, strip again;
an empty result means the pattern loop continues. -/
def cleanupPosition (v : List Char) : Option (List Char) :=
  let c := pyStrip (removeDoubleBraces (pyStrip v))
  if c.isEmpty then none else some c

/-- The position pattern cascade of improved_contact_extractor: the first
pattern whose cleaned value is non-empty wins. -/
def positionCascade (s : String) : Option String :=
  (((captureAfterLabel "Position:".data (lazyBody posClassA termA) s.data).bind
        cleanupPosition).orElse (fun _ =>
      (captureAfterLabel "Position:".data (lazyBody posClassB termB) s.data).bind
        cleanupPosition)).map String.mk

/-- re.sub(r"<[^>]+>", "", s): remove markup tags (at least one non-> char
between the brackets); written with explicit fuel, one character consumed per
step. -/
def stripTagsFuel : Nat → List Char → List Char
  | 0, cs => cs
  | _ + 1, [] => []
  | f + 1, c :: t =>
    if c == '<' then
      let run := t.takeWhile (fun x => !(x == '>'))
      if run.isEmpty then c :: stripTagsFuel f t
      else
        match t.drop run.length with
        | '>' :: rest => stripTagsFuel f rest
        | _ => c :: stripTagsFuel f t
    else c :: stripTagsFuel f t

def stripTags (cs : List Char) : List Char := stripTagsFuel cs.length cs

/-- re.sub(r"\s+", " ", s): collapse every whitespace run to one space. -/
def collapseWsAux : Bool → List Char → List Char
  | _, [] => []
  | inWs, c :: t =>
    if isWs c then
      if inWs then collapseWsAux true t else ' ' :: collapseWsAux true t
    else c :: collapseWsAux false t

def collapseWs (cs : List Char) : List Char := collapseWsAux false cs

/-! ## The improved extractor (improved_contact_extractor.py) -/

/-- One position attempt of the hardcoded employees pattern
r"(?:Number of full-time employee equivalents|employees?)[^0-9]*([0-9]+)":
the full label branch is tried first; the optional s of employees? is
absorbed by the following non-digit skip. -/
def hardEmployeesAt (cs : List Char) : Option (List Char) :=
  if startsWithCI "Number of full-time employee equivalents".data cs then
    digitsAfterSkip (cs.drop "Number of full-time employee equivalents".data.length)
  else if startsWithCI "employee".data cs then
    digitsAfterSkip (cs.drop "employee".data.length)
  else none

/-- The employees assignment of the literal-anchor strategy: the matched
digit group when the hardcoded pattern fires. -/
def employeesStep (doc : String) (m : FieldMap) : FieldMap :=
  match scanFor hardEmployeesAt doc.data with
  | some g => fmSet m "employees" (String.mk g)
  | none => m

/-- Method 1 of extract_contact_with_progress: the literal-anchor strategy,
enabled only for NPRI ID 1368, assigning the known exact values when their
literals occur in the page source (insertion order as in the source dict). -/
def method1improved (npri doc : String) : FieldMap :=
  if npri == "1368" then
    hardSet
      (hardSet
        (hardSet
          (hardSet
            (hardSet
              (employeesStep doc
                (hardSet [] "business_number" "863108833" (containsCI doc "863108833")))
              "contact_name" "Colin Hennel" (containsCI doc "Colin Hennel"))
            "position" "Manager, HSE and Regulatory"
            (containsCI doc "Manager, HSE and Regulatory"))
          "phone" "587-315-1181" (containsCI doc "587-315-1181"))
        "email" "chennel@pinecliffenergy.com"
        (containsCI doc "chennel@pinecliffenergy.com"))
      "language" "English" (containsCI doc "English")
  else []

/-- Method 2 of extract_contact_with_progress: the generic labeled patterns,
each guarded by `if key not in contact_info`. -/
def method2generic (doc : String) (m : FieldMap) : FieldMap :=
  applyGeneric
    (applyGeneric
      (applyGeneric
        (applyGeneric
          (applyGeneric m "business_number" (bnSearch doc))
          "employees" (employeesSearch doc))
        "phone" (phoneSearch doc))
      "email" (emailSearch doc))
    "language" (languageSearch doc)

/-- The full strategy cascade of extract_contact_with_progress: hardcoded
literals, then generic labeled patterns, then the contact-name patterns, then
the position patterns; methods 2-4 never overwrite an existing key. -/
def improvedFieldMap (npri doc : String) : FieldMap :=
  applyGeneric
    (applyGeneric (method2generic doc (method1improved npri doc))
      "contact_name" (nameCascade doc))
    "position" (positionCascade doc)

/-- `return contact_info if contact_info else None` (both extractors). -/
def contactInfoOrNone (m : FieldMap) : Option FieldMap :=
  if fmIsEmpty m then none else some m

/-- extract_contact_with_progress, restricted to its pure input-output
behaviour on the final page source. -/
def extract_contact_with_progress (npri doc : String) : Option FieldMap :=
  contactInfoOrNone (improvedFieldMap npri doc)

/-! ## The selenium extractor (extract_contact_info.py) -/

/-- Body of the name pattern r"Contact information[^}]*?([A-Za-z\s]+)\s+Position:":
lazy skip of non-brace characters, then a greedy letters-and-whitespace group
that must be followed by a whitespace run and the Position: label. -/
def nameScrapeBody (rest : List Char) : Option (List Char) :=
  (List.range ((rest.takeWhile (fun c => !(c == rbrace))).length + 1)).findSome? (fun s =>
    let r := rest.drop s
    ((List.range (r.takeWhile (fun c => c.isAlpha || isWs c)).length).reverse).findSome?
      (fun i =>
        let after := r.drop (i + 1)
        let w := after.takeWhile isWs
        if !w.isEmpty && startsWithCI "Position:".data (after.drop w.length) then
          some (r.take (i + 1))
        else none))

/-- The class of r"[^\\n\\r]" (raw string): everything except a backslash and
the letters n and r. -/
def posScrapeClass (c : Char) : Bool := !(c == '\\' || c == 'n' || c == 'r')

/-- Body of r"Position:\s*([^\\n\\r]+)": stripped value equals the stripped
maximal class run (the class contains all whitespace). -/
def positionScrapeBody (rest : List Char) : Option (List Char) :=
  let run := rest.takeWhile posScrapeClass
  if run.isEmpty then none else some run

/-- One assignment of scrape_contact_info_selenium's regex method:
`if match: contact_info[key] = match.group(1).strip()`. -/
def stepSet (m : FieldMap) (k : String) (r : Option (List Char)) : FieldMap :=
  match r with
  | some v => fmSet m k (String.mk (pyStrip v))
  | none => m

/-- Method 1 of scrape_contact_info_selenium: the five labeled regex
patterns, applied in dict order, values stripped. -/
def method1scrape (doc : String) : FieldMap :=
  stepSet
    (stepSet
      (stepSet
        (stepSet
          (stepSet []
            "name" (captureAfterLabel "Contact information".data nameScrapeBody doc.data))
          "position" (captureAfterLabel "Position:".data positionScrapeBody doc.data))
        "phone" (captureAfterLabel "Phone:".data phoneBody doc.data))
      "email" (captureAfterLabel "Email:".data emailBody doc.data))
    "language" (captureAfterLabel "Contact Language:".data languageBody doc.data)

/-- Method 3 of scrape_contact_info_selenium: the literal-anchor DOM checks
(an element containing the literal exists iff the literal occurs in the page
source); note these assignments are unconditional — they run after the regex
method and overwrite. -/
def method3scrape (doc : String) (m : FieldMap) : FieldMap :=
  hardSet
    (hardSet
      (hardSet m "name" "Colin Hennel" (containsStr doc "Colin Hennel"))
      "phone" "587-315-1181" (containsStr doc "587-315-1181"))
    "email" "chennel@pinecliffenergy.com"
    (containsStr doc "chennel@pinecliffenergy.com")

/-- One DOM-value assignment of method 2: the element text, stripped, when
the query found an element. -/
def domSet (m : FieldMap) (k : String) (t : Option String) : FieldMap :=
  match t with
  | some s => fmSet m k (String.mk (pyStrip s.data))
  | none => m

/-- The field map built by scrape_contact_info_selenium.  domBn and domEmp
model method 2's DOM reads: the stripped text of the first element containing
the business-number literal, and the employee value cell, none when the
query finds no element; the stored business number is unvalidated text. -/
def scrapeFieldMap (doc : String) (domBn domEmp : Option String) : FieldMap :=
  method3scrape doc
    (domSet (domSet (method1scrape doc) "business_number" domBn) "employees" domEmp)

/-- scrape_contact_info_selenium, restricted to its pure extraction
behaviour: the built dictionary when non-empty, otherwise None. -/
def scrape_contact_info_selenium (doc : String) (domBn domEmp : Option String) :
    Option FieldMap :=
  contactInfoOrNone (scrapeFieldMap doc domBn domEmp)

/-- Cleaning step of clean_contact_data.py: markup tags are removed and
whitespace collapsed for the position field only. -/
def cleanPositionValue (s : String) : String :=
  String.mk (pyStrip (collapseWs (stripTags s.data)))

/-- clean_contact_data applied to one contact_info dictionary. -/
def clean_contact_data (m : FieldMap) : FieldMap :=
  match fmLookup m "position" with
  | some p => fmSet m "position" (cleanPositionValue p)
  | none => m

/-! ## Outcome classification (the success flag and the reporting layer) -/

/-- The spec's three-way ExtractionOutcome tags; someFound models Partial. -/
inductive Outcome where
  | success : Outcome
  | someFound : Outcome
  | failure : Outcome
deriving DecidableEq

/-- `success: contact_info is not None` — the flag recorded for every attempt
by extract_contact_info.main and improved process_all_companies. -/
def success_flag (r : Option FieldMap) : Bool := r.isSome

/-- The classification the code actually realises: the reporting layer
distinguishes only the boolean success flag. -/
def reportedOutcome (m : FieldMap) : Outcome :=
  if success_flag (contactInfoOrNone m) then Outcome.success else Outcome.failure

/-- Modelled from the spec: the three-way classification rule of §4.4
(Success iff contact_name, phone or email present; else Partial iff any
field present; else Failure).  Stated for comparison with the code's
classification; no such rule exists in the source. -/
def specClassify (m : FieldMap) : Outcome :=
  if fmHas m "contact_name" || fmHas m "phone" || fmHas m "email" then Outcome.success
  else if fmIsEmpty m then Outcome.failure
  else Outcome.someFound

/-! ## The per-company loop of process_all_companies (improved extractor) -/

structure CompanyResult where
  company : String
  npri : String
  contact_info : Option FieldMap
  success : Bool
deriving DecidableEq

/-- The result dictionary appended for one company. -/
def mkCompanyResult (c n : String) (r : Option FieldMap) : CompanyResult :=
  { company := c, npri := n, contact_info := r, success := r.isSome }

/-- The outer loop of process_all_companies: one (company, npri, page source)
triple per iteration, results appended in order. -/
def process_all_companies : List (String × String × String) → List CompanyResult
  | [] => []
  | (c, n, d) :: rest =>
    mkCompanyResult c n (extract_contact_with_progress n d) :: process_all_companies rest

/-! ## The identifier resolver (main.py download_npri_csv_with_selenium) -/

def hexDigit (c : Char) : Option Nat :=
  if c.isDigit then some (c.toNat - '0'.toNat)
  else if 'A' ≤ c && c ≤ 'F' then some (c.toNat - 'A'.toNat + 10)
  else if 'a' ≤ c && c ≤ 'f' then some (c.toNat - 'a'.toNat + 10)
  else none

/-- urllib.parse.unquote restricted to %XX escapes of ASCII characters. -/
def pyUnquote : List Char → List Char
  | [] => []
  | '%' :: a :: b :: t =>
    match hexDigit a, hexDigit b with
    | some x, some y => Char.ofNat (16 * x + y) :: pyUnquote t
    | _, _ => '%' :: pyUnquote (a :: b :: t)
  | c :: t => c :: pyUnquote t

/-- Python str.split() with no argument: split on whitespace runs. -/
def wsSplitFuel : Nat → List Char → List (List Char)
  | 0, _ => []
  | _ + 1, [] => []
  | f + 1, c :: t =>
    if isWs c then wsSplitFuel f t
    else
      (c :: t.takeWhile (fun x => !(isWs x))) ::
        wsSplitFuel f (t.dropWhile (fun x => !(isWs x)))

def wsSplit (cs : List Char) : List (List Char) := wsSplitFuel cs.length cs

/-- Python str.split(sep) on character lists: split at each non-overlapping
occurrence of the separator, left to right. -/
def splitOnListFuel (sep : List Char) : Nat → List Char → List Char → List (List Char)
  | 0, acc, cs => [acc.reverse ++ cs]
  | _ + 1, acc, [] => [acc.reverse]
  | f + 1, acc, c :: t =>
    if startsWithCS sep (c :: t) && !sep.isEmpty then
      acc.reverse :: splitOnListFuel sep f [] ((c :: t).drop sep.length)
    else splitOnListFuel sep f (c :: acc) t

def splitOnList (sep cs : List Char) : List (List Char) :=
  splitOnListFuel sep (cs.length + 1) [] cs

/-- url.split("name=")[1].split("&")[0], unquoted, dots removed, split on
whitespace, keywords longer than three characters kept. -/
def companyKeywords (url : String) : List String :=
  let enc := (splitOnList "&".data
    ((splitOnList "name=".data url.data).getD 1 [])).headD []
  let dec := pyUnquote enc
  let cleaned := dec.filter (fun c => !(c == '.'))
  ((wsSplit cleaned).map String.mk).filter (fun k => 3 < k.data.length)

structure Link where
  href : String
  text : String
deriving DecidableEq

structure Cell where
  text : String
  links : List Link
deriving DecidableEq

structure Row where
  cells : List Cell
deriving DecidableEq

structure Table where
  rows : List Row
deriving DecidableEq

/-- The parsed listing document: its tables and its plain text
(soup.get_text()). -/
structure ListingPage where
  tables : List Table
  text : String
deriving DecidableEq

/-- row.get_text(), modelled as the concatenation of the cell texts. -/
def rowText (r : Row) : String := String.join (r.cells.map Cell.text)

def rowLinks (r : Row) : List Link := (r.cells.map Cell.links).flatten

def tableLinks (t : Table) : List Link := (t.rows.map rowLinks).flatten

/-- Python str.isdigit() on ASCII content. -/
def isDigitStr (s : String) : Bool := !s.data.isEmpty && s.data.all Char.isDigit

/-- First header index whose uppercased text contains both NPRI and ID. -/
def findNpriIdxAux : List String → Nat → Option Nat
  | [], _ => none
  | h :: t, i =>
    if hasSubList "NPRI".data (h.data.map Char.toUpper) &&
        hasSubList "ID".data (h.data.map Char.toUpper) then some i
    else findNpriIdxAux t (i + 1)

/-- Checks inside one company-matching row: every link first (year-scoped or
long numeric text), then the first link of the NPRI ID cell. -/
def rowCheck (row : Row) (idx : Nat) : Option String :=
  ((rowLinks row).findSome? (fun l =>
    if containsStr l.href "/2024/" && isDigitStr l.text then some l.text
    else if isDigitStr l.text && 3 ≤ l.text.length then some l.text
    else none)).orElse (fun _ =>
    match row.cells[idx]? with
    | some cell =>
      match cell.links.head? with
      | some l => if isDigitStr l.text then some l.text else none
      | none => none
    | none => none)

/-- The keyword-filtered row phase. -/
def rowPhase (t : Table) (idx : Nat) (kws : List String) : Option String :=
  t.rows.findSome? (fun row =>
    if kws.any (fun k => containsCI (rowText row) k) then rowCheck row idx else none)

def digitsRunBody (rest : List Char) : Option (List Char) :=
  let run := rest.takeWhile Char.isDigit
  if run.isEmpty then none else some run

/-- re.search(r"/2024/(\d+)", href). -/
def href2024Digits (h : String) : Option String :=
  (captureAfterLabel "/2024/".data digitsRunBody h.data).map String.mk

/-- The table-wide link phase, ignoring the company filter. -/
def linkPhase (t : Table) : Option String :=
  (tableLinks t).findSome? (fun l =>
    if containsStr l.href "/2024/" && isDigitStr l.text then some l.text
    else href2024Digits l.href)

/-- The last in-table phase: any numeric cell of length at least three. -/
def numericCellPhase (t : Table) : Option String :=
  t.rows.findSome? (fun r =>
    r.cells.findSome? (fun c =>
      if isDigitStr c.text && 3 ≤ c.text.length then some c.text else none))

/-- Scan of one table: header detection, then the three in-table phases. -/
def tableScan (kws : List String) (t : Table) : Option String :=
  match t.rows.head? with
  | none => none
  | some hr =>
    match findNpriIdxAux (hr.cells.map Cell.text) 0 with
    | none => none
    | some idx =>
      (rowPhase t idx kws).orElse (fun _ =>
        (linkPhase t).orElse (fun _ => numericCellPhase t))

def knownNpriIds : List String := ["1368", "6626", "15098"]

/-- Python \w word-character class (ASCII). -/
def wordChar (c : Char) : Bool := c.isAlphanum || c == '_'

/-- re.findall(r"\b\d{4,5}\b", text): maximal digit runs of length four or
five with non-word neighbours. -/
def digitRunsFuel : Nat → Bool → List Char → List (List Char)
  | 0, _, _ => []
  | _ + 1, _, [] => []
  | f + 1, prevWord, c :: t =>
    if c.isDigit && !prevWord then
      let run := c :: t.takeWhile Char.isDigit
      let rest := t.drop (t.takeWhile Char.isDigit).length
      let ok := (run.length == 4 || run.length == 5) &&
        (match rest.head? with
         | some d => !wordChar d
         | none => true)
      (if ok then [run] else []) ++ digitRunsFuel f true rest
    else digitRunsFuel f (wordChar c) t

/-- The printed last-resort candidate list: deduplicated 4-5 digit tokens,
first ten (the source materialises a set, whose iteration order is
unspecified; the list is printed, never returned). -/
def npriTextCandidates (s : String) : List String :=
  (((digitRunsFuel s.data.length false s.data).map String.mk).eraseDups).take 10

/-- main.py download_npri_csv_with_selenium, restricted to its pure
resolution behaviour on the parsed page: the table scan, then the hardcoded
known-identifier scan over the plain text; the final 4-5 digit scan only
prints candidates and the function returns None. -/
def download_npri_csv_with_selenium (page : ListingPage) (url : String) :
    Option String :=
  if page.tables.isEmpty then none
  else
    match page.tables.findSome? (tableScan (companyKeywords url)) with
    | some v => some v
    | none => knownNpriIds.find? (fun id => containsStr page.text id)

/-! ## main.py module namespace and process_single_company -/

/-- The global names defined or imported by main.py; `scrape_npri_data`,
called at the top of process_single_company, is not among them and is
defined nowhere in the repository. -/
def mainModuleGlobals : List String :=
  ["os", "sys", "time", "urllib", "Path", "requests", "BeautifulSoup",
   "download_npri_csv_with_selenium", "scrape_with_selenium",
   "create_url_for_company", "get_known_npri_data", "process_single_company",
   "read_companies_from_file", "main"]

/-- process_single_company: its first statement after printing resolves the
global name scrape_npri_data; an unresolvable name raises NameError, which no
handler in the function catches. -/
def process_single_company (company : String) :
    Except String (String × Option String × String) :=
  if mainModuleGlobals.contains "scrape_npri_data" then
    Except.ok (company, none, "Static Scraping")
  else
    Except.error "NameError: name scrape_npri_data is not defined"

/-! ## The readiness waiters, in whole seconds -/

/-- The polling loop of extract_contact_with_progress: six iterations of
sleep(5) followed by a content check; break on detection, no settle delay
after the loop. -/
def improvedWaitAux (sig : Nat → Bool) : Nat → Nat → Nat × Bool
  | 0, t => (t, false)
  | k + 1, t => if sig (t + 5) then (t + 5, true) else improvedWaitAux sig k (t + 5)

/-- (time at which the loop exits, content-detected). -/
def improvedWait (sig : Nat → Bool) : Nat × Bool := improvedWaitAux sig 6 0

/-- Extraction begins immediately when the loop exits. -/
def improvedExtractionStart (sig : Nat → Bool) : Nat := (improvedWait sig).1

/-- The waiter of scrape_contact_info_selenium: sleep(10), then
WebDriverWait(45).until(anchor present) polling once per second, the
TimeoutException caught. -/
def scrapeWaitAux (sig : Nat → Bool) : Nat → Nat → Nat × Bool
  | 0, t => (t, false)
  | k + 1, t => if sig t then (t, true) else scrapeWaitAux sig k (t + 1)

def scrapeWait (sig : Nat → Bool) : Nat × Bool := scrapeWaitAux sig 45 10

/-- After either outcome, sleep(15) elapses before extraction. -/
def scrapeExtractionStart (sig : Nat → Bool) : Nat := (scrapeWait sig).1 + 15

/-- The settle-delay sentence of the claim, read against
extract_contact_with_progress: some fixed positive settle delay elapses
between content detection and the start of extraction. -/
def settleClaimImproved : Prop :=
  ∃ d, 0 < d ∧ ∀ sig t, improvedWait sig = (t, true) → t + d ≤ improvedExtractionStart sig

/-! ## Concrete documents used by the claim theorems -/

/-- Modelled from the spec's phone shape sentence: digits, hyphens and
parentheses only — no whitespace of any kind. -/
def strictPhoneChar (c : Char) : Bool := c.isDigit || c == '-' || c == '(' || c == ')'

def docC2 : String := "Phone: 111-222-3333x 587-315-1181"

def docC5 : String := "Phone: 587 315 1181"

def docC5w : String := "Business number 863108833 Phone: 587-3151 Email: a@bc.de"

/-- A facility page whose business-number literal is present, so the DOM
query of scrape_contact_info_selenium finds an element. -/
def docC5bn : String := "Business number data 863108833"

def docC8 : String := "Phone: <b>587-315-1181</b>"

def docC10 : String := "Phone: <b>12</b>"

def urlAcme : String :=
  "https://pollution-waste.canada.ca/national-release-inventory/?fromYear=2024&toYear=2024&name=Acme&direction=ascending&order=NPRI_Id&length=10&page=1"

def acmeDataRow : Row :=
  { cells := [{ text := "Acme Corp", links := [] },
              { text := "4821", links := [{ href := "/2024/4821", text := "4821" }] }] }

/-- Header row of the claim's scenario, verbatim. -/
def headerRowRegistry : Row :=
  { cells := [{ text := "Company", links := [] }, { text := "Registry ID", links := [] }] }

/-- Header row carrying the tokens the source actually tests for. -/
def headerRowNpri : Row :=
  { cells := [{ text := "Company", links := [] }, { text := "NPRI ID", links := [] }] }

def pageC6bad : ListingPage :=
  { tables := [{ rows := [headerRowRegistry, acmeDataRow] }],
    text := "Company Registry ID Acme Corp 4821" }

def pageC6good : ListingPage :=
  { tables := [{ rows := [headerRowNpri, acmeDataRow] }],
    text := "Company NPRI ID Acme Corp 4821" }

/-- The same listing with the identifier header in lower case and the tokens
in the other order. -/
def pageC6low : ListingPage :=
  { tables := [{ rows :=
      [{ cells := [{ text := "Company", links := [] },
                   { text := "id of npri entry", links := [] }] }, acmeDataRow] }],
    text := "Company id of npri entry Acme Corp 4821" }

/-- A listing whose only table lacks the identifier header and whose plain
text happens to contain the hardcoded known identifier 1368. -/
def pageC3 : ListingPage :=
  { tables := [{ rows := [{ cells := [{ text := "Results", links := [] }] }] }],
    text := "facility 1368 is listed" }

/-- Same shape, but with no known identifier in the text. -/
def pageC3w : ListingPage :=
  { tables := [{ rows := [{ cells := [{ text := "Results", links := [] }] }] }],
    text := "abcd 4821 xyz" }

end Npri

namespace Npri

/-! ## Field-map lemmas -/

theorem fmLookup_fmSet_self (k v : String) :
    ∀ m : FieldMap, fmLookup (fmSet m k v) k = some v := by
  intro m
  induction m with
  | nil => simp [fmSet, fmLookup]
  | cons p t ih =>
    obtain ⟨k', v'⟩ := p
    by_cases h : (k' == k) = true
    · simp [fmSet, h, fmLookup]
    · have h' : (k' == k) = false := by
        cases hb : (k' == k)
        · rfl
        · exact absurd hb h
      simp [fmSet, h', fmLookup, ih]

theorem fmLookup_fmSet_ne {k' k : String} (h : (k' == k) = false) (v : String) :
    ∀ m : FieldMap, fmLookup (fmSet m k' v) k = fmLookup m k := by
  intro m
  induction m with
  | nil => simp [fmSet, fmLookup, h]
  | cons p t ih =>
    obtain ⟨a, b⟩ := p
    by_cases ha : (a == k') = true
    · have : a = k' := beq_iff_eq.mp ha
      subst this
      simp [fmSet, ha, fmLookup, h]
    · have ha' : (a == k') = false := by
        cases hb : (a == k')
        · rfl
        · exact absurd hb ha
      simp [fmSet, ha', fmLookup, ih]

theorem fmHas_false_lookup {k : String} :
    ∀ m : FieldMap, fmHas m k = false → fmLookup m k = none := by
  intro m
  induction m with
  | nil => intro _; rfl
  | cons p t ih =>
    obtain ⟨a, b⟩ := p
    intro h
    simp [fmHas] at h
    simp [fmLookup, h.1, ih h.2]

theorem fmLookup_applyGeneric_preserve {m : FieldMap} {k k' : String} {v : String}
    (r : Option String) (h : fmLookup m k = some v) :
    fmLookup (applyGeneric m k' r) k = some v := by
  unfold applyGeneric
  by_cases hh : fmHas m k' = true
  · simp [hh, h]
  · have hh' : fmHas m k' = false := by
      cases hb : fmHas m k'
      · rfl
      · exact absurd hb hh
    simp [hh']
    cases r with
    | none => exact h
    | some w =>
      by_cases hk : (k' == k) = true
      · have : k' = k := beq_iff_eq.mp hk
        subst this
        rw [fmHas_false_lookup m hh'] at h
        exact absurd h (by simp)
      · have hk' : (k' == k) = false := by
          cases hb : (k' == k)
          · rfl
          · exact absurd hb hk
        simp [fmLookup_fmSet_ne hk', h]

theorem fmLookup_applyGeneric_ne {m : FieldMap} {k k' : String}
    (h : (k' == k) = false) (r : Option String) :
    fmLookup (applyGeneric m k' r) k = fmLookup m k := by
  unfold applyGeneric
  by_cases hh : fmHas m k' = true
  · simp [hh]
  · have hh' : fmHas m k' = false := by
      cases hb : fmHas m k'
      · rfl
      · exact absurd hb hh
    cases r with
    | none => simp [hh']
    | some w => simp [hh', fmLookup_fmSet_ne h]

theorem fmLookup_applyGeneric_cases {m : FieldMap} {k : String} {v : String}
    (r : Option String) (h : fmLookup (applyGeneric m k r) k = some v) :
    fmLookup m k = some v ∨ (fmLookup m k = none ∧ r = some v) := by
  unfold applyGeneric at h
  by_cases hh : fmHas m k = true
  · simp [hh] at h
    exact Or.inl h
  · have hh' : fmHas m k = false := by
      cases hb : fmHas m k
      · rfl
      · exact absurd hb hh
    simp [hh'] at h
    cases r with
    | none => exact Or.inl h
    | some w =>
      rw [fmLookup_fmSet_self k w m] at h
      refine Or.inr ⟨fmHas_false_lookup m hh', ?_⟩
      simp at h
      simp [h]

theorem fmLookup_hardSet_ne {k' k : String} (h : (k' == k) = false)
    (m : FieldMap) (v : String) (c : Bool) :
    fmLookup (hardSet m k' v c) k = fmLookup m k := by
  unfold hardSet
  cases c
  · simp
  · simp [fmLookup_fmSet_ne h]

theorem fmLookup_hardSet_cases {k : String} {m : FieldMap} {v w : String} {c : Bool}
    (h : fmLookup (hardSet m k v c) k = some w) :
    w = v ∨ fmLookup m k = some w := by
  unfold hardSet at h
  cases c
  · simp at h
    exact Or.inr h
  · simp [fmLookup_fmSet_self] at h
    exact Or.inl h.symm

/-- The success flag recorded by the reporting loops is exactly non-emptiness
of the built dictionary. -/
theorem success_flag_contactInfoOrNone (m : FieldMap) :
    success_flag (contactInfoOrNone m) = !(fmIsEmpty m) := by
  unfold success_flag contactInfoOrNone
  cases h : fmIsEmpty m <;> simp [h]

/-! ## Claim theorems -/

/-- C1 counterexample: a field map holding only the employee count is
recorded as a success by the code (it is returned non-None and the success
flag is set), whereas the claimed three-way rule classifies it Partial — the
code's classification disagrees with the claimed rule at this input. -/
theorem c1_counterexample :
    reportedOutcome [("employees", "12")] = Outcome.success ∧
    specClassify [("employees", "12")] = Outcome.someFound ∧
    reportedOutcome [("employees", "12")] ≠ specClassify [("employees", "12")] := by
  decide

/-- C1 amended: the code classifies two ways, not three: the attempt is
recorded a success exactly when the field map is non-empty (so a map holding
only employee_count is a success), and no Partial outcome is ever produced. -/
theorem c1_amended_classification :
    ∀ m : FieldMap,
      reportedOutcome m ≠ Outcome.someFound ∧
      (reportedOutcome m = Outcome.success ↔ m ≠ ([] : FieldMap)) := by
  intro m
  unfold reportedOutcome
  rw [success_flag_contactInfoOrNone]
  cases m with
  | nil => simp [fmIsEmpty]
  | cons p t => simp [fmIsEmpty]

/-- C4: process_single_company never returns a result tuple — its first step
resolves the global name scrape_npri_data, which is defined nowhere in the
repository, so every call raises NameError before any scraping happens. -/
theorem c4_process_single_company_raises :
    ∀ company : String,
      process_single_company company =
        Except.error "NameError: name scrape_npri_data is not defined" := by
  intro company
  rfl

set_option maxRecDepth 40000 in
/-- C2 counterexample: on this page source the labeled-field strategy
(method 1) extracts phone 111-222-3333, but the literal-anchor strategy runs
afterwards and overwrites it, so the merged value differs from the earlier
strategy's value. -/
theorem c2_counterexample :
    fmLookup (method1scrape docC2) "phone" = some "111-222-3333" ∧
    scrape_contact_info_selenium docC2 none none = some [("phone", "587-315-1181")] ∧
    fmLookup (scrapeFieldMap docC2 none none) "phone" ≠ some "111-222-3333" := by
  decide

set_option maxRecDepth 40000 in
/-- C5 counterexample: the phone class of the labeled pattern includes
whitespace, so a phone value with internal spaces reaches the merged map,
violating the claimed digits-hyphens-parentheses-only shape; and in
scrape_contact_info_selenium the business number is the DOM element's text
stored with only a strip, so a non-numeric value reaches the merged map,
violating the purely-numeric business-identifier clause as well. -/
theorem c5_counterexample :
    fmLookup (improvedFieldMap "9999" docC5) "phone" = some "587 315 1181" ∧
    ("587 315 1181" : String).data.all strictPhoneChar = false ∧
    fmLookup (scrapeFieldMap docC5bn (some " BN: 863108833 RT0001 ") none)
      "business_number" = some "BN: 863108833 RT0001" ∧
    ("BN: 863108833 RT0001" : String).data.all Char.isDigit = false := by
  decide

set_option maxRecDepth 40000 in
/-- C6 counterexample: with the scenario's literal header Registry ID the
source's header test (NPRI and ID must both occur, uppercased) fails, no
other phase fires, and the resolver returns None instead of 4821. -/
theorem c6_counterexample :
    download_npri_csv_with_selenium pageC6bad urlAcme = none ∧
    download_npri_csv_with_selenium pageC6bad urlAcme ≠ some "4821" := by
  decide

set_option maxRecDepth 40000 in
/-- C6 amended: with the header spelled with the tokens the source actually
tests (NPRI and ID, case-insensitively, order-independently), the Acme row's
year-scoped link with numeric text 4821 is returned. -/
theorem c6_amended_scenario :
    download_npri_csv_with_selenium pageC6good urlAcme = some "4821" ∧
    download_npri_csv_with_selenium pageC6low urlAcme = some "4821" := by
  constructor
  · decide
  · decide

set_option maxRecDepth 40000 in
/-- C3 counterexample: the table approach yields nothing on this page, yet
the resolver auto-selects and returns the hardcoded known identifier 1368
found in the plain text — a single automatically chosen value on this path. -/
theorem c3_counterexample :
    pageC3.tables.findSome? (tableScan (companyKeywords urlAcme)) = none ∧
    download_npri_csv_with_selenium pageC3 urlAcme = some "1368" := by
  decide

/-- C3 amended: when tables exist but the table approach yields nothing, the
resolver first returns the first hardcoded known identifier occurring in the
page text; only when none occurs does it fall through to the 4-5-digit text
scan, which surfaces candidates for manual review and returns no value. -/
theorem c3_amended_fallback_returns_none :
    ∀ (page : ListingPage) (url : String),
      page.tables.isEmpty = false →
      page.tables.findSome? (tableScan (companyKeywords url)) = none →
      (∀ id ∈ knownNpriIds, containsStr page.text id = false) →
      download_npri_csv_with_selenium page url = none := by
  intro page url h1 h2 h3
  unfold download_npri_csv_with_selenium
  rw [h1, h2]
  simp only [Bool.false_eq_true, if_false]
  rw [List.find?_eq_none]
  intro x hx
  simp [h3 x hx]

set_option maxRecDepth 40000 in
/-- C3 amended witness: a concrete page with a table, no known identifier
and a 4-to-5-digit token; the resolver returns none and the printed
candidate list holds the token. -/
theorem c3_amended_witness :
    download_npri_csv_with_selenium pageC3w urlAcme = none ∧
    npriTextCandidates pageC3w.text = ["4821"] := by
  refine ⟨c3_amended_fallback_returns_none pageC3w urlAcme ?_ ?_ ?_, ?_⟩
  · decide
  · decide
  · decide
  · decide

/-- C7 counterexample: in extract_contact_with_progress no settle delay of
any positive length separates content detection from extraction — with a
signal first observed at the 5-second poll, extraction starts at 5 seconds
exactly. -/
theorem c7_counterexample : ¬ settleClaimImproved := by
  intro h
  obtain ⟨d, hd, h⟩ := h
  have h5 := h (fun t => Nat.ble 5 t) 5 rfl
  have he : improvedExtractionStart (fun t => Nat.ble 5 t) = 5 := rfl
  rw [he] at h5
  omega

theorem improvedWaitAux_timeout (sig : Nat → Bool) :
    ∀ (k t : Nat), (improvedWaitAux sig k t).2 = false →
      (improvedWaitAux sig k t).1 = t + 5 * k := by
  intro k
  induction k with
  | zero => intro t _; simp [improvedWaitAux]
  | succ k ih =>
    intro t h
    unfold improvedWaitAux at h ⊢
    cases hs : sig (t + 5)
    · simp [hs] at h ⊢
      rw [ih (t + 5) h]
      omega
    · simp [hs] at h

theorem scrapeWaitAux_timeout (sig : Nat → Bool) :
    ∀ (k t : Nat), (scrapeWaitAux sig k t).2 = false →
      (scrapeWaitAux sig k t).1 = t + k := by
  intro k
  induction k with
  | zero => intro t _; simp [scrapeWaitAux]
  | succ k ih =>
    intro t h
    unfold scrapeWaitAux at h ⊢
    cases hs : sig t
    · simp [hs] at h ⊢
      rw [ih (t + 1) h]
      omega
    · simp [hs] at h

/-- C7 amended: both waiters are total (never raise); with no signal the
polling loop of extract_contact_with_progress returns exactly at its
30-second budget and the waiter of scrape_contact_info_selenium exactly at
its 45-second budget (10+45=55), after which the fixed 15-second settle delay
puts extraction at 70; after a detection at time t, scrape extraction starts
exactly at t+15, but extract_contact_with_progress starts extraction
immediately at t, with no settle delay. -/
theorem c7_amended_waiter :
    ∀ sig : Nat → Bool,
      ((improvedWait sig).2 = false → (improvedWait sig).1 = 30) ∧
      (∀ t, improvedWait sig = (t, true) → improvedExtractionStart sig = t) ∧
      ((scrapeWait sig).2 = false →
        (scrapeWait sig).1 = 55 ∧ scrapeExtractionStart sig = 70) ∧
      (∀ t, scrapeWait sig = (t, true) → scrapeExtractionStart sig = t + 15) := by
  intro sig
  refine ⟨?_, ?_, ?_, ?_⟩
  · intro h
    have := improvedWaitAux_timeout sig 6 0 h
    simpa [improvedWait] using this
  · intro t h
    unfold improvedExtractionStart
    rw [h]
  · intro h
    have := scrapeWaitAux_timeout sig 45 10 h
    constructor
    · simpa [scrapeWait] using this
    · unfold scrapeExtractionStart
      rw [show (scrapeWait sig).1 = 55 by simpa [scrapeWait] using this]
  · intro t h
    unfold scrapeExtractionStart
    rw [h]

/-- C7 amended witness: with a signal present from second 15 on, the polling
loop exits at 15 and extraction starts at 15 (no settle), while the scrape
waiter detects at 15 and starts extraction at 30; with no signal ever, the
loops exit at 30 and 55 respectively. -/
theorem c7_amended_witness :
    improvedExtractionStart (fun t => Nat.ble 15 t) = 15 ∧
    (improvedWait (fun _ => false)).1 = 30 ∧
    scrapeExtractionStart (fun t => Nat.ble 15 t) = 30 ∧
    (scrapeWait (fun _ => false)).1 = 55 := by
  refine ⟨(c7_amended_waiter _).2.1 15 rfl, (c7_amended_waiter _).1 rfl, ?_, ?_⟩
  · exact (c7_amended_waiter (fun t => Nat.ble 15 t)).2.2.2 15 rfl
  · exact ((c7_amended_waiter (fun _ => false)).2.2.1 rfl).1

set_option maxRecDepth 40000 in
/-- C8 counterexample: with markup directly wrapping the phone value, the
labeled pattern captures only whitespace and the merged phone is the empty
string, not 587-315-1181; moreover the cleaning step strips tags from the
position field only and leaves a markup-bearing phone value untouched. -/
theorem c8_counterexample :
    fmLookup (improvedFieldMap "9999" docC8) "phone" = some "" ∧
    clean_contact_data [("phone", "<b>587-315-1181</b>")] =
      [("phone", "<b>587-315-1181</b>")] ∧
    fmLookup (improvedFieldMap "9999" docC8) "phone" ≠ some "587-315-1181" := by
  decide

set_option maxRecDepth 40000 in
/-- C8 amended: markup stripping is performed by clean_contact_data on the
position field only; the phone label pattern cannot capture a markup-wrapped
value (it yields the empty string), while a phone that follows its label
without intervening markup is merged exactly, and a markup-bearing position
is cleaned to plain text with collapsed whitespace. -/
theorem c8_amended_normalization :
    phoneSearch "Phone: 587-315-1181" = some "587-315-1181" ∧
    fmLookup (improvedFieldMap "9999" "Phone: 587-315-1181") "phone" =
      some "587-315-1181" ∧
    phoneSearch docC8 = some "" ∧
    cleanPositionValue "<b>Manager</b>,   HSE and Regulatory" =
      "Manager, HSE and Regulatory" ∧
    clean_contact_data [("position", "<b>Manager</b>"), ("phone", "587-315-1181")] =
      [("position", "Manager"), ("phone", "587-315-1181")] := by
  decide

/-- C9: the cascade is a pure function of the captured page source and the
target identifier — in the per-company loop, a company's recorded outcome is
the extractor's value on its own document, independently of everything
processed before or after; in particular, processing the identical document
twice yields identical outcomes. -/
theorem c9_cascade_deterministic :
    ∀ (pre : List (String × String × String)) (c n d : String)
      (post : List (String × String × String)),
      (process_all_companies (pre ++ (c, n, d) :: post))[pre.length]? =
        some (mkCompanyResult c n (extract_contact_with_progress n d)) := by
  intro pre
  induction pre with
  | nil => intro c n d post; simp [process_all_companies]
  | cons x t ih =>
    intro c n d post
    obtain ⟨a, b, e⟩ := x
    simpa [process_all_companies] using ih c n d post

/-- C10: the recorded success flag is true exactly when the built field map
has at least one key — values are never checked, and a page where markup
directly follows the Phone: label binds phone to the empty string while the
attempt is still recorded as a success. -/
theorem c10_success_iff_nonempty :
    (∀ (doc : String) (bn emp : Option String),
      success_flag (scrape_contact_info_selenium doc bn emp) =
        !(fmIsEmpty (scrapeFieldMap doc bn emp))) ∧
    (∀ npri doc : String,
      success_flag (extract_contact_with_progress npri doc) =
        !(fmIsEmpty (improvedFieldMap npri doc))) ∧
    scrape_contact_info_selenium docC10 none none = some [("phone", "")] ∧
    success_flag (scrape_contact_info_selenium docC10 none none) = true := by
  refine ⟨?_, ?_, by decide, by decide⟩
  · intro doc bn emp
    exact success_flag_contactInfoOrNone _
  · intro npri doc
    exact success_flag_contactInfoOrNone _

/-! ## First-writer-wins in the improved extractor (claim C2) -/

theorem method2generic_preserve {doc : String} {m : FieldMap} {k v : String}
    (h : fmLookup m k = some v) : fmLookup (method2generic doc m) k = some v := by
  unfold method2generic
  exact fmLookup_applyGeneric_preserve _
    (fmLookup_applyGeneric_preserve _
      (fmLookup_applyGeneric_preserve _
        (fmLookup_applyGeneric_preserve _ (fmLookup_applyGeneric_preserve _ h))))

theorem improvedFieldMap_preserve {npri doc k v : String}
    (h : fmLookup (method1improved npri doc) k = some v) :
    fmLookup (improvedFieldMap npri doc) k = some v := by
  unfold improvedFieldMap
  exact fmLookup_applyGeneric_preserve _
    (fmLookup_applyGeneric_preserve _ (method2generic_preserve h))

/-- C2 amended: in extract_contact_with_progress the first-writer-wins
invariant does hold: any key bound by the literal-anchor method, or by the
cascade up to and including the generic labeled method, keeps that value in
the merged map — later strategies never overwrite.  (In
scrape_contact_info_selenium the literal-anchor strategy instead runs last
and overwrites, as the counterexample shows.) -/
theorem c2_amended_first_writer_wins :
    ∀ npri doc k v : String,
      (fmLookup (method1improved npri doc) k = some v →
        fmLookup (improvedFieldMap npri doc) k = some v) ∧
      (fmLookup (method2generic doc (method1improved npri doc)) k = some v →
        fmLookup (improvedFieldMap npri doc) k = some v) := by
  intro npri doc k v
  constructor
  · exact improvedFieldMap_preserve
  · intro h
    unfold improvedFieldMap
    exact fmLookup_applyGeneric_preserve _ (fmLookup_applyGeneric_preserve _ h)

set_option maxRecDepth 40000 in
/-- C2 amended witness: on a page holding the known literal, the
literal-anchor method binds contact_name and the merged map keeps exactly
that value. -/
theorem c2_amended_witness :
    fmLookup (method1improved "1368" "Colin Hennel") "contact_name" =
      some "Colin Hennel" ∧
    fmLookup (improvedFieldMap "1368" "Colin Hennel") "contact_name" =
      some "Colin Hennel" := by
  constructor
  · decide
  · exact (c2_amended_first_writer_wins "1368" "Colin Hennel" "contact_name"
      "Colin Hennel").1 (by decide)

/-! ## Shape lemmas for the generic pattern values (claim C5) -/

theorem captureAfterLabel_body_some (label : List Char)
    (body : List Char → Option (List Char)) :
    ∀ (cs v : List Char), captureAfterLabel label body cs = some v →
      ∃ r, body r = some v := by
  intro cs
  induction cs with
  | nil => intro v h; simp [captureAfterLabel] at h
  | cons c t ih =>
    intro v h
    unfold captureAfterLabel at h
    by_cases hs : startsWithCI label (c :: t) = true
    · rw [if_pos hs] at h
      cases hb : body ((c :: t).drop label.length) with
      | some w =>
        rw [hb] at h
        have hw : w = v := by simpa using h
        exact ⟨_, by rw [hb, hw]⟩
      | none =>
        rw [hb] at h
        exact ih v h
    · rw [if_neg hs] at h
      exact ih v h

theorem all_dropWhile {p q : Char → Bool} :
    ∀ l : List Char, l.all p = true → (l.dropWhile q).all p = true := by
  intro l
  induction l with
  | nil => simp
  | cons a t ih =>
    intro h
    rw [List.all_cons, Bool.and_eq_true] at h
    by_cases hq : q a = true
    · rw [List.dropWhile_cons_of_pos hq]
      exact ih h.2
    · rw [List.dropWhile_cons_of_neg (by simpa using hq), List.all_cons,
        Bool.and_eq_true]
      exact ⟨h.1, h.2⟩

theorem all_take {p : Char → Bool} :
    ∀ (l : List Char) (n : Nat), l.all p = true → (l.take n).all p = true := by
  intro l
  induction l with
  | nil => intro n _; simp
  | cons a t ih =>
    intro n h
    rw [List.all_cons, Bool.and_eq_true] at h
    cases n with
    | zero => simp
    | succ n =>
      rw [List.take_succ_cons, List.all_cons, Bool.and_eq_true]
      exact ⟨h.1, ih n h.2⟩

theorem isWs_cases {c : Char} (h : isWs c = true) :
    c = ' ' ∨ c = '\t' ∨ c = '\n' ∨ c = '\r' ∨ c = '\x0b' ∨ c = '\x0c' := by
  unfold isWs at h
  simp only [Bool.or_eq_true, beq_iff_eq] at h
  tauto

theorem digit_not_ws {c : Char} (h : c.isDigit = true) : isWs c = false := by
  cases hw : isWs c
  · rfl
  · exfalso
    rcases isWs_cases hw with h1 | h1 | h1 | h1 | h1 | h1 <;> rw [h1] at h <;>
      exact absurd h (by decide)

theorem localClass_not_ws {c : Char} (h : localClass c = true) : isWs c = false := by
  cases hw : isWs c
  · rfl
  · exfalso
    rcases isWs_cases hw with h1 | h1 | h1 | h1 | h1 | h1 <;> rw [h1] at h <;>
      exact absurd h (by decide)

theorem alpha_not_ws {c : Char} (h : c.isAlpha = true) : isWs c = false := by
  cases hw : isWs c
  · rfl
  · exfalso
    rcases isWs_cases hw with h1 | h1 | h1 | h1 | h1 | h1 <;> rw [h1] at h <;>
      exact absurd h (by decide)

theorem dropWhile_eq_self_of_all {p q : Char → Bool} {l : List Char}
    (hall : l.all p = true) (hnp : ∀ c, p c = true → q c = false) :
    l.dropWhile q = l := by
  cases l with
  | nil => rfl
  | cons a t =>
    have ha : p a = true := by
      rw [List.all_cons, Bool.and_eq_true] at hall
      exact hall.1
    rw [List.dropWhile_cons_of_neg (by simp [hnp a ha])]

theorem pyStrip_eq_self_of_all {p : Char → Bool} {l : List Char}
    (hall : l.all p = true) (hnp : ∀ c, p c = true → isWs c = false) :
    pyStrip l = l := by
  unfold pyStrip
  rw [dropWhile_eq_self_of_all hall hnp,
    dropWhile_eq_self_of_all (by rw [List.all_reverse]; exact hall) hnp,
    List.reverse_reverse]

theorem pyStrip_all {p : Char → Bool} {l : List Char} (h : l.all p = true) :
    (pyStrip l).all p = true := by
  unfold pyStrip
  rw [List.all_reverse]
  apply all_dropWhile
  rw [List.all_reverse]
  exact all_dropWhile _ h

theorem head?_dropWhile_false {p : Char → Bool} :
    ∀ (l : List Char) {c : Char}, (l.dropWhile p).head? = some c → p c = false := by
  intro l
  induction l with
  | nil => intro c h; simp at h
  | cons a t ih =>
    intro c h
    by_cases hp : p a = true
    · rw [List.dropWhile_cons_of_pos hp] at h
      exact ih h
    · rw [List.dropWhile_cons_of_neg (by simpa using hp)] at h
      have : a = c := by simpa using h
      subst this
      cases hq : p a
      · rfl
      · exact absurd hq hp

theorem getLast?_dropWhile_transfer {p : Char → Bool} :
    ∀ (l : List Char) {c : Char},
      (l.dropWhile p).getLast? = some c → l.getLast? = some c := by
  intro l
  induction l with
  | nil => intro c h; simp at h
  | cons a t ih =>
    intro c h
    by_cases hp : p a = true
    · rw [List.dropWhile_cons_of_pos hp] at h
      have h2 := ih h
      cases t with
      | nil => simp at h2
      | cons b t' =>
        rw [List.getLast?_cons_cons]
        exact h2
    · rw [List.dropWhile_cons_of_neg (by simpa using hp)] at h
      exact h

theorem head?_pyStrip_not_ws {l : List Char} {c : Char}
    (h : (pyStrip l).head? = some c) : isWs c = false := by
  unfold pyStrip at h
  rw [List.head?_reverse] at h
  have h2 := getLast?_dropWhile_transfer _ h
  rw [List.getLast?_reverse] at h2
  exact head?_dropWhile_false _ h2

theorem getLast?_pyStrip_not_ws {l : List Char} {c : Char}
    (h : (pyStrip l).getLast? = some c) : isWs c = false := by
  unfold pyStrip at h
  rw [List.getLast?_reverse] at h
  exact head?_dropWhile_false _ h

theorem phoneSearch_shape {doc v : String} (h : phoneSearch doc = some v) :
    v.data.all phoneClass = true ∧
    (∀ c, v.data.head? = some c → isWs c = false) ∧
    (∀ c, v.data.getLast? = some c → isWs c = false) := by
  unfold phoneSearch phoneSearchL at h
  cases hc : captureAfterLabel "Phone:".data phoneBody doc.data with
  | none => rw [hc] at h; simp at h
  | some r =>
    rw [hc] at h
    simp only [Option.map_some'] at h
    have hmk : String.mk (pyStrip r) = v := by simpa using h
    have hv : v.data = pyStrip r := by rw [← hmk]
    obtain ⟨r', hr'⟩ := captureAfterLabel_body_some _ _ _ _ hc
    unfold phoneBody at hr'
    by_cases he : (r'.takeWhile phoneClass).isEmpty = true
    · rw [if_pos he] at hr'
      exact absurd hr' (by simp)
    · rw [if_neg he] at hr'
      have hr : r = r'.takeWhile phoneClass := by simpa using hr'.symm
      refine ⟨?_, ?_, ?_⟩
      · rw [hv]
        exact pyStrip_all (by rw [hr]; exact List.all_takeWhile)
      · intro c hc2
        rw [hv] at hc2
        exact head?_pyStrip_not_ws hc2
      · intro c hc2
        rw [hv] at hc2
        exact getLast?_pyStrip_not_ws hc2

theorem bnSearch_shape {doc v : String} (h : bnSearch doc = some v) :
    v.data.length = 9 ∧ v.data.all Char.isDigit = true := by
  unfold bnSearch bnSearchL at h
  cases hc : captureAfterLabel "Business number".data bnBody doc.data with
  | none => rw [hc] at h; simp at h
  | some r =>
    rw [hc] at h
    simp only [Option.map_some'] at h
    have hmk : String.mk (pyStrip r) = v := by simpa using h
    have hv : v.data = pyStrip r := by rw [← hmk]
    obtain ⟨r', hr'⟩ := captureAfterLabel_body_some _ _ _ _ hc
    unfold bnBody at hr'
    by_cases hcond :
        (((r'.dropWhile (fun c => !c.isDigit)).take 9).length == 9 &&
          ((r'.dropWhile (fun c => !c.isDigit)).take 9).all Char.isDigit) = true
    · rw [if_pos hcond] at hr'
      have hr : r = (r'.dropWhile (fun c => !c.isDigit)).take 9 := by
        simpa using hr'.symm
      rw [Bool.and_eq_true] at hcond
      have hlen : r.length = 9 := by
        rw [hr]
        simpa using hcond.1
      have hall : r.all Char.isDigit = true := by rw [hr]; exact hcond.2
      have hstrip : pyStrip r = r :=
        pyStrip_eq_self_of_all hall (fun c hc => digit_not_ws hc)
      rw [hv, hstrip]
      exact ⟨hlen, hall⟩
    · rw [if_neg hcond] at hr'
      exact absurd hr' (by simp)

theorem getLast?_all {p : Char → Bool} :
    ∀ (l : List Char) {c : Char}, l.all p = true → l.getLast? = some c →
      p c = true := by
  intro l
  induction l with
  | nil => intro c _ h; simp at h
  | cons a t ih =>
    intro c hall h
    rw [List.all_cons, Bool.and_eq_true] at hall
    cases t with
    | nil =>
      have : a = c := by simpa using h
      subst this
      exact hall.1
    | cons b t' =>
      rw [List.getLast?_cons_cons] at h
      exact ih hall.2 h

theorem emailBody_struct {r0 v : List Char} (h : emailBody r0 = some v) :
    ∃ l B L, v = l ++ '@' :: (B ++ '.' :: L) ∧ l ≠ [] ∧ l.all localClass = true ∧
      B ≠ [] ∧ B.all domainClass = true ∧ 2 ≤ L.length ∧
      L.all Char.isAlpha = true := by
  unfold emailBody at h
  by_cases hle : ((r0.dropWhile isWs).takeWhile localClass).isEmpty = true
  · rw [if_pos hle] at h
    exact absurd h (by simp)
  · rw [if_neg hle] at h
    cases hdrop :
        (r0.dropWhile isWs).drop ((r0.dropWhile isWs).takeWhile localClass).length with
    | nil =>
      rw [hdrop] at h
      simp at h
    | cons a d =>
      rw [hdrop] at h
      simp only [] at h
      by_cases ha : a = '@'
      · rw [if_pos ha] at h
        cases hdm : domainMatch (d.takeWhile domainClass) with
        | none =>
          rw [hdm] at h
          simp at h
        | some dm =>
          rw [hdm] at h
          simp only [Option.map_some'] at h
          have hv := Option.some.inj h
          obtain ⟨k, hkmem, hk⟩ := List.exists_of_findSome?_eq_some hdm
          unfold tryDomainAt at hk
          by_cases hk0 : (k == 0) = true
          · rw [if_pos hk0] at hk
            exact absurd hk (by simp)
          · rw [if_neg hk0] at hk
            cases hDk : (d.takeWhile domainClass).drop k with
            | nil =>
              rw [hDk] at hk
              exact absurd hk (by simp)
            | cons b rest2 =>
              rw [hDk] at hk
              simp only [] at hk
              by_cases hb : b = '.'
              · rw [if_pos hb] at hk
                by_cases hls : 2 ≤ (rest2.takeWhile Char.isAlpha).length
                · rw [if_pos hls] at hk
                  have hdm2 := Option.some.inj hk
                  refine ⟨(r0.dropWhile isWs).takeWhile localClass,
                    (d.takeWhile domainClass).take k,
                    rest2.takeWhile Char.isAlpha, ?_, ?_, ?_, ?_, ?_, hls, ?_⟩
                  · rw [← hv, ← hdm2]
                  · simpa using hle
                  · exact List.all_takeWhile
                  · have hklt : k < (d.takeWhile domainClass).length := by
                      by_contra hge
                      rw [not_lt] at hge
                      rw [List.drop_eq_nil_iff.mpr hge] at hDk
                      exact absurd hDk (by simp)
                    have hk1 : 1 ≤ k := by
                      rcases Nat.eq_zero_or_pos k with h0 | h0
                      · exact absurd (by simpa using h0) hk0
                      · exact h0
                    intro hnil
                    have hlen := congrArg List.length hnil
                    rw [List.length_take] at hlen
                    simp only [List.length_nil] at hlen
                    omega
                  · exact all_take _ _ List.all_takeWhile
                  · exact List.all_takeWhile
                · rw [if_neg hls] at hk
                  exact absurd hk (by simp)
              · rw [if_neg hb] at hk
                exact absurd hk (by simp)
      · rw [if_neg ha] at h
        exact absurd h (by simp)

theorem all_mono {p q : Char → Bool} (hpq : ∀ c, p c = true → q c = true)
    {l : List Char} (h : l.all p = true) : l.all q = true := by
  rw [List.all_eq_true] at h ⊢
  exact fun x hx => hpq x (h x hx)

theorem domainClass_not_ws {c : Char} (h : domainClass c = true) :
    isWs c = false := by
  cases hw : isWs c
  · rfl
  · exfalso
    rcases isWs_cases hw with h1 | h1 | h1 | h1 | h1 | h1 <;> rw [h1] at h <;>
      exact absurd h (by decide)

/-- Every character of a matched email value is a local-part, domain-part or
@ character. -/
def emailChar (c : Char) : Bool := localClass c || domainClass c || c == '@'

theorem emailChar_not_ws {c : Char} (h : emailChar c = true) : isWs c = false := by
  unfold emailChar at h
  rw [Bool.or_eq_true, Bool.or_eq_true] at h
  rcases h with (h | h) | h
  · exact localClass_not_ws h
  · exact domainClass_not_ws h
  · have : c = '@' := by simpa using h
    subst this
    decide

theorem emailSearch_struct {doc v : String} (h : emailSearch doc = some v) :
    ∃ l B L, v.data = l ++ '@' :: (B ++ '.' :: L) ∧ l ≠ [] ∧
      l.all localClass = true ∧ B ≠ [] ∧ B.all domainClass = true ∧
      2 ≤ L.length ∧ L.all Char.isAlpha = true := by
  unfold emailSearch emailSearchL at h
  cases hc : captureAfterLabel "Email:".data emailBody doc.data with
  | none => rw [hc] at h; simp at h
  | some r =>
    rw [hc] at h
    simp only [Option.map_some'] at h
    have hmk : String.mk (pyStrip r) = v := by simpa using h
    have hv : v.data = pyStrip r := by rw [← hmk]
    obtain ⟨r', hr'⟩ := captureAfterLabel_body_some _ _ _ _ hc
    obtain ⟨l, B, L, hdec, hl, hlc, hB, hBc, hL2, hLa⟩ := emailBody_struct hr'
    have hall : r.all emailChar = true := by
      rw [List.all_eq_true]
      intro x hx
      rw [hdec] at hx
      simp only [List.mem_append, List.mem_cons] at hx
      rcases hx with hx | hx | hx | hx | hx <;>
        first
          | (subst hx; decide)
          | (have hcc := List.all_eq_true.mp hlc x hx; simp [emailChar, hcc])
          | (have hcc := List.all_eq_true.mp hBc x hx; simp [emailChar, hcc])
          | (have hcc := List.all_eq_true.mp hLa x hx;
             simp [emailChar, domainClass, Char.isAlphanum, hcc])
    have hstrip : pyStrip r = r :=
      pyStrip_eq_self_of_all hall (fun c hcx => emailChar_not_ws hcx)
    rw [hv, hstrip]
    exact ⟨l, B, L, hdec, hl, hlc, hB, hBc, hL2, hLa⟩

/-! ## Where a merged value can come from, per key (claim C5) -/

theorem fmLookup_employeesStep_ne {k : String} (h : ("employees" == k) = false)
    (doc : String) (m : FieldMap) :
    fmLookup (employeesStep doc m) k = fmLookup m k := by
  unfold employeesStep
  cases scanFor hardEmployeesAt doc.data with
  | none => rfl
  | some g => exact fmLookup_fmSet_ne h _ m

theorem m1_phone {npri doc v : String}
    (h : fmLookup (method1improved npri doc) "phone" = some v) :
    v = "587-315-1181" := by
  unfold method1improved at h
  by_cases hn : (npri == "1368") = true
  · rw [if_pos hn] at h
    rw [fmLookup_hardSet_ne (by decide)] at h
    rw [fmLookup_hardSet_ne (by decide)] at h
    rcases fmLookup_hardSet_cases h with hv | h2
    · exact hv
    · rw [fmLookup_hardSet_ne (by decide)] at h2
      rw [fmLookup_hardSet_ne (by decide)] at h2
      rw [fmLookup_employeesStep_ne (by decide)] at h2
      rw [fmLookup_hardSet_ne (by decide)] at h2
      exact absurd h2 (by simp [fmLookup])
  · rw [if_neg hn] at h
    exact absurd h (by simp [fmLookup])

theorem m1_email {npri doc v : String}
    (h : fmLookup (method1improved npri doc) "email" = some v) :
    v = "chennel@pinecliffenergy.com" := by
  unfold method1improved at h
  by_cases hn : (npri == "1368") = true
  · rw [if_pos hn] at h
    rw [fmLookup_hardSet_ne (by decide)] at h
    rcases fmLookup_hardSet_cases h with hv | h2
    · exact hv
    · rw [fmLookup_hardSet_ne (by decide)] at h2
      rw [fmLookup_hardSet_ne (by decide)] at h2
      rw [fmLookup_hardSet_ne (by decide)] at h2
      rw [fmLookup_employeesStep_ne (by decide)] at h2
      rw [fmLookup_hardSet_ne (by decide)] at h2
      exact absurd h2 (by simp [fmLookup])
  · rw [if_neg hn] at h
    exact absurd h (by simp [fmLookup])

theorem m1_bn {npri doc v : String}
    (h : fmLookup (method1improved npri doc) "business_number" = some v) :
    v = "863108833" := by
  unfold method1improved at h
  by_cases hn : (npri == "1368") = true
  · rw [if_pos hn] at h
    rw [fmLookup_hardSet_ne (by decide)] at h
    rw [fmLookup_hardSet_ne (by decide)] at h
    rw [fmLookup_hardSet_ne (by decide)] at h
    rw [fmLookup_hardSet_ne (by decide)] at h
    rw [fmLookup_hardSet_ne (by decide)] at h
    rw [fmLookup_employeesStep_ne (by decide)] at h
    rcases fmLookup_hardSet_cases h with hv | h2
    · exact hv
    · exact absurd h2 (by simp [fmLookup])
  · rw [if_neg hn] at h
    exact absurd h (by simp [fmLookup])

theorem improved_phone_source {npri doc v : String}
    (h : fmLookup (improvedFieldMap npri doc) "phone" = some v) :
    v = "587-315-1181" ∨ phoneSearch doc = some v := by
  unfold improvedFieldMap at h
  rw [fmLookup_applyGeneric_ne (by decide)] at h
  rw [fmLookup_applyGeneric_ne (by decide)] at h
  unfold method2generic at h
  rw [fmLookup_applyGeneric_ne (by decide)] at h
  rw [fmLookup_applyGeneric_ne (by decide)] at h
  rcases fmLookup_applyGeneric_cases _ h with h2 | ⟨_, hs⟩
  · rw [fmLookup_applyGeneric_ne (by decide)] at h2
    rw [fmLookup_applyGeneric_ne (by decide)] at h2
    exact Or.inl (m1_phone h2)
  · exact Or.inr hs

theorem improved_email_source {npri doc v : String}
    (h : fmLookup (improvedFieldMap npri doc) "email" = some v) :
    v = "chennel@pinecliffenergy.com" ∨ emailSearch doc = some v := by
  unfold improvedFieldMap at h
  rw [fmLookup_applyGeneric_ne (by decide)] at h
  rw [fmLookup_applyGeneric_ne (by decide)] at h
  unfold method2generic at h
  rw [fmLookup_applyGeneric_ne (by decide)] at h
  rcases fmLookup_applyGeneric_cases _ h with h2 | ⟨_, hs⟩
  · rw [fmLookup_applyGeneric_ne (by decide)] at h2
    rw [fmLookup_applyGeneric_ne (by decide)] at h2
    rw [fmLookup_applyGeneric_ne (by decide)] at h2
    exact Or.inl (m1_email h2)
  · exact Or.inr hs

theorem improved_bn_source {npri doc v : String}
    (h : fmLookup (improvedFieldMap npri doc) "business_number" = some v) :
    v = "863108833" ∨ bnSearch doc = some v := by
  unfold improvedFieldMap at h
  rw [fmLookup_applyGeneric_ne (by decide)] at h
  rw [fmLookup_applyGeneric_ne (by decide)] at h
  unfold method2generic at h
  rw [fmLookup_applyGeneric_ne (by decide)] at h
  rw [fmLookup_applyGeneric_ne (by decide)] at h
  rw [fmLookup_applyGeneric_ne (by decide)] at h
  rw [fmLookup_applyGeneric_ne (by decide)] at h
  rcases fmLookup_applyGeneric_cases _ h with h2 | ⟨_, hs⟩
  · exact Or.inl (m1_bn h2)
  · exact Or.inr hs

/-! ## Where a scrape_contact_info_selenium value can come from, per key -/

theorem fmLookup_stepSet_ne {k' k : String} (h : (k' == k) = false)
    (m : FieldMap) (r : Option (List Char)) :
    fmLookup (stepSet m k' r) k = fmLookup m k := by
  unfold stepSet
  cases r with
  | none => rfl
  | some w => exact fmLookup_fmSet_ne h _ m

theorem fmLookup_stepSet_cases {m : FieldMap} {k : String}
    {r : Option (List Char)} {v : String}
    (h : fmLookup (stepSet m k r) k = some v) :
    fmLookup m k = some v ∨ ∃ w, r = some w ∧ v = String.mk (pyStrip w) := by
  unfold stepSet at h
  cases r with
  | none => exact Or.inl h
  | some w =>
    rw [fmLookup_fmSet_self] at h
    exact Or.inr ⟨w, rfl, (Option.some.inj h).symm⟩

theorem fmLookup_domSet_ne {k' k : String} (h : (k' == k) = false)
    (m : FieldMap) (t : Option String) :
    fmLookup (domSet m k' t) k = fmLookup m k := by
  unfold domSet
  cases t with
  | none => rfl
  | some w => exact fmLookup_fmSet_ne h _ m

theorem fmLookup_domSet_cases {m : FieldMap} {k : String} {t : Option String}
    {v : String} (h : fmLookup (domSet m k t) k = some v) :
    fmLookup m k = some v ∨ ∃ s, t = some s ∧ v = String.mk (pyStrip s.data) := by
  unfold domSet at h
  cases t with
  | none => exact Or.inl h
  | some w =>
    rw [fmLookup_fmSet_self] at h
    exact Or.inr ⟨w, rfl, (Option.some.inj h).symm⟩

theorem scrape_phone_source {doc : String} {bn emp : Option String} {v : String}
    (h : fmLookup (scrapeFieldMap doc bn emp) "phone" = some v) :
    v = "587-315-1181" ∨ phoneSearch doc = some v := by
  unfold scrapeFieldMap method3scrape at h
  rw [fmLookup_hardSet_ne (by decide)] at h
  rcases fmLookup_hardSet_cases h with hv | h2
  · exact Or.inl hv
  · rw [fmLookup_hardSet_ne (by decide)] at h2
    rw [fmLookup_domSet_ne (by decide)] at h2
    rw [fmLookup_domSet_ne (by decide)] at h2
    unfold method1scrape at h2
    rw [fmLookup_stepSet_ne (by decide)] at h2
    rw [fmLookup_stepSet_ne (by decide)] at h2
    rcases fmLookup_stepSet_cases h2 with h3 | ⟨w, hw, hv⟩
    · rw [fmLookup_stepSet_ne (by decide)] at h3
      rw [fmLookup_stepSet_ne (by decide)] at h3
      exact absurd h3 (by simp [fmLookup])
    · right
      unfold phoneSearch phoneSearchL
      rw [hw]
      simp [hv]

theorem scrape_email_source {doc : String} {bn emp : Option String} {v : String}
    (h : fmLookup (scrapeFieldMap doc bn emp) "email" = some v) :
    v = "chennel@pinecliffenergy.com" ∨ emailSearch doc = some v := by
  unfold scrapeFieldMap method3scrape at h
  rcases fmLookup_hardSet_cases h with hv | h2
  · exact Or.inl hv
  · rw [fmLookup_hardSet_ne (by decide)] at h2
    rw [fmLookup_hardSet_ne (by decide)] at h2
    rw [fmLookup_domSet_ne (by decide)] at h2
    rw [fmLookup_domSet_ne (by decide)] at h2
    unfold method1scrape at h2
    rw [fmLookup_stepSet_ne (by decide)] at h2
    rcases fmLookup_stepSet_cases h2 with h3 | ⟨w, hw, hv⟩
    · rw [fmLookup_stepSet_ne (by decide)] at h3
      rw [fmLookup_stepSet_ne (by decide)] at h3
      rw [fmLookup_stepSet_ne (by decide)] at h3
      exact absurd h3 (by simp [fmLookup])
    · right
      unfold emailSearch emailSearchL
      rw [hw]
      simp [hv]

theorem scrape_bn_source {doc : String} {bn emp : Option String} {v : String}
    (h : fmLookup (scrapeFieldMap doc bn emp) "business_number" = some v) :
    ∃ s, bn = some s ∧ v = String.mk (pyStrip s.data) := by
  unfold scrapeFieldMap method3scrape at h
  rw [fmLookup_hardSet_ne (by decide)] at h
  rw [fmLookup_hardSet_ne (by decide)] at h
  rw [fmLookup_hardSet_ne (by decide)] at h
  rw [fmLookup_domSet_ne (by decide)] at h
  rcases fmLookup_domSet_cases h with h2 | hs
  · unfold method1scrape at h2
    rw [fmLookup_stepSet_ne (by decide)] at h2
    rw [fmLookup_stepSet_ne (by decide)] at h2
    rw [fmLookup_stepSet_ne (by decide)] at h2
    rw [fmLookup_stepSet_ne (by decide)] at h2
    rw [fmLookup_stepSet_ne (by decide)] at h2
    exact absurd h2 (by simp [fmLookup])
  · exact hs

/-- The hardcoded literal phone value satisfies the phone shape. -/
theorem phone_literal_shape :
    ("587-315-1181" : String).data.all phoneClass = true ∧
    (∀ c, ("587-315-1181" : String).data.head? = some c → isWs c = false) ∧
    (∀ c, ("587-315-1181" : String).data.getLast? = some c → isWs c = false) := by
  refine ⟨by decide, ?_, ?_⟩
  · intro c hc
    have hc5 : c = '5' := by
      rw [show ("587-315-1181" : String).data.head? = some '5' from rfl] at hc
      exact (Option.some.inj hc).symm
    subst hc5
    decide
  · intro c hc
    have hc1 : c = '1' := by
      rw [show ("587-315-1181" : String).data.getLast? = some '1' from rfl] at hc
      exact (Option.some.inj hc).symm
    subst hc1
    decide

/-- The hardcoded literal email value has the local@domain.tld structure. -/
theorem email_literal_struct :
    ∃ l B L, ("chennel@pinecliffenergy.com" : String).data =
        l ++ '@' :: (B ++ '.' :: L) ∧ l ≠ [] ∧ l.all localClass = true ∧
      B ≠ [] ∧ B.all domainClass = true ∧ 2 ≤ L.length ∧
      L.all Char.isAlpha = true :=
  ⟨"chennel".data, "pinecliffenergy".data, "com".data,
    by decide, by decide, by decide, by decide, by decide, by decide, by decide⟩

/-- C5 amended: in extract_contact_with_progress every merged phone value
consists of digits, hyphens, parentheses and possibly internal whitespace
with no leading or trailing whitespace, every merged email value has the
local@domain.tld shape, and every merged business number (generic pattern or
hardcoded literal) is purely numeric of length nine.  In
scrape_contact_info_selenium the phone and email clauses likewise hold
(labeled pattern or hardcoded literal), but the business number is only the
DOM element's text with leading and trailing whitespace stripped — no shape
validation at all.  The original claim's no-internal-whitespace phone clause
and its every-extractor numeric business-identifier clause are what the
counterexample refutes. -/
theorem c5_amended_shapes :
    ∀ (npri doc : String) (bn emp : Option String) (v : String),
      (fmLookup (improvedFieldMap npri doc) "phone" = some v →
        v.data.all phoneClass = true ∧
        (∀ c, v.data.head? = some c → isWs c = false) ∧
        (∀ c, v.data.getLast? = some c → isWs c = false)) ∧
      (fmLookup (improvedFieldMap npri doc) "email" = some v →
        ∃ l B L, v.data = l ++ '@' :: (B ++ '.' :: L) ∧ l ≠ [] ∧
          l.all localClass = true ∧ B ≠ [] ∧ B.all domainClass = true ∧
          2 ≤ L.length ∧ L.all Char.isAlpha = true) ∧
      (fmLookup (improvedFieldMap npri doc) "business_number" = some v →
        v.data.length = 9 ∧ v.data.all Char.isDigit = true) ∧
      (fmLookup (scrapeFieldMap doc bn emp) "phone" = some v →
        v.data.all phoneClass = true ∧
        (∀ c, v.data.head? = some c → isWs c = false) ∧
        (∀ c, v.data.getLast? = some c → isWs c = false)) ∧
      (fmLookup (scrapeFieldMap doc bn emp) "email" = some v →
        ∃ l B L, v.data = l ++ '@' :: (B ++ '.' :: L) ∧ l ≠ [] ∧
          l.all localClass = true ∧ B ≠ [] ∧ B.all domainClass = true ∧
          2 ≤ L.length ∧ L.all Char.isAlpha = true) ∧
      (fmLookup (scrapeFieldMap doc bn emp) "business_number" = some v →
        ∃ s, bn = some s ∧ v = String.mk (pyStrip s.data)) := by
  intro npri doc bn emp v
  refine ⟨?_, ?_, ?_, ?_, ?_, ?_⟩
  · intro h
    rcases improved_phone_source h with hv | hs
    · subst hv
      exact phone_literal_shape
    · exact phoneSearch_shape hs
  · intro h
    rcases improved_email_source h with hv | hs
    · subst hv
      exact email_literal_struct
    · exact emailSearch_struct hs
  · intro h
    rcases improved_bn_source h with hv | hs
    · subst hv
      exact ⟨by decide, by decide⟩
    · exact bnSearch_shape hs
  · intro h
    rcases scrape_phone_source h with hv | hs
    · subst hv
      exact phone_literal_shape
    · exact phoneSearch_shape hs
  · intro h
    rcases scrape_email_source h with hv | hs
    · subst hv
      exact email_literal_struct
    · exact emailSearch_struct hs
  · exact scrape_bn_source

set_option maxRecDepth 40000 in
/-- C5 amended witness: on a concrete page both extractors put a phone and
an email in the merged map satisfying their shape clauses, the improved
extractor a nine-digit numeric business number, and the scrape extractor
stores exactly the stripped DOM text as the business number. -/
theorem c5_amended_witness :
    (("587-3151" : String).data.all phoneClass = true ∧
      (∀ c, ("587-3151" : String).data.head? = some c → isWs c = false) ∧
      (∀ c, ("587-3151" : String).data.getLast? = some c → isWs c = false)) ∧
    (∃ l B L, ("a@bc.de" : String).data = l ++ '@' :: (B ++ '.' :: L) ∧
      l ≠ [] ∧ l.all localClass = true ∧ B ≠ [] ∧ B.all domainClass = true ∧
      2 ≤ L.length ∧ L.all Char.isAlpha = true) ∧
    (("863108833" : String).data.length = 9 ∧
      ("863108833" : String).data.all Char.isDigit = true) ∧
    (∃ s, (some " BN 863108833 RT " : Option String) = some s ∧
      ("BN 863108833 RT" : String) = String.mk (pyStrip s.data)) := by
  refine ⟨(c5_amended_shapes "9999" docC5w none none "587-3151").1 (by decide),
    (c5_amended_shapes "9999" docC5w none none "a@bc.de").2.1 (by decide),
    (c5_amended_shapes "9999" docC5w none none "863108833").2.2.1 (by decide),
    (c5_amended_shapes "9999" docC5w (some " BN 863108833 RT ") none
      "BN 863108833 RT").2.2.2.2.2 (by decide)⟩

/-- C1 amended witness: the amended classification instantiated at the
employee-count-only map. -/
theorem c1_amended_witness :
    reportedOutcome [("employees", "12")] ≠ Outcome.someFound ∧
    (reportedOutcome [("employees", "12")] = Outcome.success ↔
      [("employees", "12")] ≠ ([] : FieldMap)) :=
  c1_amended_classification [("employees", "12")]

/-- C4 witness: the NameError at a concrete company name. -/
theorem c4_witness :
    process_single_company "Pine Cliff Energy Ltd" =
      Except.error "NameError: name scrape_npri_data is not defined" :=
  c4_process_single_company_raises "Pine Cliff Energy Ltd"

/-- C9 witness: two consecutive runs on the identical document record the
identical outcome. -/
theorem c9_witness :
    (process_all_companies
      [("A Corp", "9999", "Phone: 555-0100"), ("A Corp", "9999", "Phone: 555-0100")])[1]? =
      some (mkCompanyResult "A Corp" "9999"
        (extract_contact_with_progress "9999" "Phone: 555-0100")) := by
  simpa using
    c9_cascade_deterministic [("A Corp", "9999", "Phone: 555-0100")] "A Corp" "9999"
      "Phone: 555-0100" []

/-- C10 witness: the success flag equals map non-emptiness at the
markup-after-label page. -/
theorem c10_witness :
    success_flag (scrape_contact_info_selenium docC10 none none) =
      !(fmIsEmpty (scrapeFieldMap docC10 none none)) :=
  c10_success_iff_nonempty.1 docC10 none none

end Npri
